import Mathlib

/-!
Verification of the task-store core shared by the two `TodoApp`
implementations of this repository: `todo_app.py` (console variant) and
`app.py` (form/web variant).

The Python code is embedded shallowly: the `Task` dataclass becomes a
structure, the mutable `TodoApp` instance state (`self.tasks`,
`self.next_id`) becomes `TodoState`, in-place mutation becomes functional
state passing, the JSON document written by `save_to_file` becomes a
`JVal` tree, the clock reading `datetime.now().strftime(...)` becomes an
explicit `created_at` argument, and an exception escaping a method becomes
`Except PyError`.
-/

namespace Todo

/-- The `Task` dataclass (identical in `todo_app.py` lines 29-37 and
`app.py` lines 23-31). -/
structure Task where
  id : Int
  title : String
  description : String
  category : String
  created_at : String
  completed : Bool
deriving  DecidableEq

/-- The mutable state of a `TodoApp` instance: `self.tasks` and
`self.next_id`. -/
structure TodoState where
  tasks : List Task
  next_id : Int
deriving  DecidableEq

/-- The state `TodoApp.__init__` establishes before `load_from_file`
runs: no tasks, `next_id = 1`. -/
def initialState : TodoState := ⟨[], 1⟩

/-- JSON values as handled by Python's `json` module.  An object stands
for the parsed Python dict, whose keys are distinct; numbers are
restricted to the integers this application actually stores. -/
inductive JVal where
  | jnull
  | jbool (b : Bool)
  | jnum (n : Int)
  | jstr (s : String)
  | jarr (elems : List JVal)
  | jobj (fields : List (String × JVal))

/-- `d.get(k)` on a Python dict (keys distinct, so first match is the
match). -/
def dictGet (fields : List (String × JVal)) (k : String) : Option JVal :=
  match fields with
  | [] => none
  | (k', v) :: rest => if k' = k then some v else dictGet rest k

/-- Exceptions that can escape the embedded methods, plus `untypedState`,
a marker for the few places where Python would succeed but build a value
outside this typed model (for example a non-integer `id` loaded from a
foreign file); no claim depends on those places. -/
inductive PyError where
  | typeError
  | attributeError
  | untypedState
deriving  DecidableEq

/-- `asdict(task)`, with the dataclass field order. -/
def taskToJson (t : Task) : JVal :=
  .jobj [("id", .jnum t.id), ("title", .jstr t.title),
         ("description", .jstr t.description), ("category", .jstr t.category),
         ("created_at", .jstr t.created_at), ("completed", .jbool t.completed)]

/-- The keyword arguments `Task.__init__` accepts. -/
def taskFieldNames : List String :=
  ["id", "title", "description", "category", "created_at", "completed"]

/-- `Task(**d)`: every key must name a dataclass field and the five
fields without defaults must all be present, otherwise Python raises
`TypeError`; `completed` defaults to `False`. -/
def taskFromDict (d : List (String × JVal)) : Except PyError Task :=
  if ¬ (d.all fun kv => taskFieldNames.contains kv.1) then .error .typeError
  else
    match dictGet d "id", dictGet d "title", dictGet d "description",
          dictGet d "category", dictGet d "created_at" with
    | some vi, some vt, some vd, some vc, some vca =>
        (match vi, vt, vd, vc, vca, dictGet d "completed" with
         | .jnum i, .jstr t, .jstr de, .jstr c, .jstr ca, none =>
             .ok ⟨i, t, de, c, ca, false⟩
         | .jnum i, .jstr t, .jstr de, .jstr c, .jstr ca, some (.jbool b) =>
             .ok ⟨i, t, de, c, ca, b⟩
         | _, _, _, _, _, _ => .error .untypedState)
    | _, _, _, _, _ => .error .typeError

/-- `[Task(**task) for task in xs]` over a Python list, failing at the
first bad element as Python does. -/
def tasksFromList (xs : List JVal) : Except PyError (List Task) :=
  match xs with
  | [] => .ok []
  | .jobj d :: rest =>
      match taskFromDict d with
      | .ok t =>
          match tasksFromList rest with
          | .ok ts => .ok (t :: ts)
          | .error e => .error e
      | .error e => .error e
  | _ :: _ => .error .typeError

/-- Iterating `data.get("tasks", [])`: a list iterates elementwise; an
empty string or empty dict iterates to nothing; any other value makes the
comprehension raise `TypeError` (not iterable, or `Task(**x)` on a
non-mapping element). -/
def tasksFromJson (v : JVal) : Except PyError (List Task) :=
  match v with
  | .jarr xs => tasksFromList xs
  | .jstr s => if s = "" then .ok [] else .error .typeError
  | .jobj fields => if fields.isEmpty then .ok [] else .error .typeError
  | _ => .error .typeError

/-- `TodoApp.save_to_file` (todo_app.py 64-71 and app.py 54-61,
identical): the JSON document written to disk. -/
def save_to_file (s : TodoState) : JVal :=
  .jobj [("next_id", .jnum s.next_id),
         ("tasks", .jarr (s.tasks.map taskToJson))]

/-- `TodoApp.__init__` followed by `load_from_file` (todo_app.py 55-83
and app.py 49-73, identical).  `none` means the backing file is absent;
`some none` means it exists but `json.load` raises `JSONDecodeError`
(caught, state reset to empty); `some (some v)` is the parsed document.
Only `JSONDecodeError` and `KeyError` are caught, so a non-dict document
(`AttributeError` from `data.get`) or a bad task entry (`TypeError` from
`Task(**task)`) escapes and construction fails. -/
def load_from_file (file : Option (Option JVal)) : Except PyError TodoState :=
  match file with
  | none => .ok initialState
  | some none => .ok initialState
  | some (some (.jobj fields)) =>
      match (dictGet fields "next_id").getD (.jnum 1) with
      | .jnum n =>
          match tasksFromJson ((dictGet fields "tasks").getD (.jarr [])) with
          | .ok ts => .ok ⟨ts, n⟩
          | .error e => .error e
      | _ => .error .untypedState
  | some (some _) => .error .attributeError

/-- Python's `str.strip()`: remove leading and trailing whitespace.
Defined by structural recursion over the character list so that it
evaluates inside the kernel (core Lean's `String.trim` is defined by
well-founded recursion on substrings and does not reduce). -/
def pyStrip (s : String) : String :=
  ⟨((s.data.dropWhile Char.isWhitespace).reverse.dropWhile
      Char.isWhitespace).reverse⟩

/-- In-place mutation of the object returned by a first-match scan over
`self.tasks`, rendered functionally: replace the first task whose id
matches. -/
def mutateFirst (tasks : List Task) (task_id : Int) (f : Task → Task) : List Task :=
  match tasks with
  | [] => []
  | t :: rest =>
      if t.id = task_id then f t :: rest else t :: mutateFirst rest task_id f

/-- Python's `list.remove(x)`: drop the first element equal to `x`
(dataclass equality compares all fields).  Removing an absent element
would raise `ValueError`; both call sites only ever remove an element
obtained from the list itself. -/
def listRemove (tasks : List Task) (x : Task) : List Task :=
  match tasks with
  | [] => []
  | t :: rest => if t = x then rest else t :: listRemove rest x

namespace Console

/-- `TodoApp.add_task` (todo_app.py 89-102): no validation, no trimming;
appends the new task and bumps `next_id`. -/
def add_task (s : TodoState) (title description category created_at : String) :
    TodoState × Task :=
  let task : Task := ⟨s.next_id, title, description, category, created_at, false⟩
  (⟨s.tasks ++ [task], s.next_id + 1⟩, task)

/-- `TodoApp.get_all_tasks` (todo_app.py 104-106). -/
def get_all_tasks (s : TodoState) : List Task := s.tasks

/-- `TodoApp.get_tasks_by_category` (todo_app.py 108-110). -/
def get_tasks_by_category (s : TodoState) (category : String) : List Task :=
  s.tasks.filter (fun task => task.category == category)

/-- `TodoApp.get_task_by_id` (todo_app.py 112-117): linear scan, first
match wins. -/
def get_task_by_id (s : TodoState) (task_id : Int) : Option Task :=
  s.tasks.find? (fun task => task.id == task_id)

/-- The field updates `update_task` applies to the found task
(todo_app.py 124-129): `if title:` (truthy, untrimmed), `if description
is not None:` (any provided string, even empty, overwrites), `if
category:` (truthy). -/
def updateFields (t : Task) (title description category : Option String) : Task :=
  let t1 := match title with
            | some x => if x = "" then t else { t with title := x }
            | none => t
  let t2 := match description with
            | some d => { t1 with description := d }
            | none => t1
  match category with
  | some c => if c = "" then t2 else { t2 with category := c }
  | none => t2

/-- `TodoApp.update_task` (todo_app.py 119-132); parameters default to
`None` in the source, rendered as `Option String`. -/
def update_task (s : TodoState) (task_id : Int)
    (title description category : Option String) : TodoState × Bool :=
  match get_task_by_id s task_id with
  | some _ =>
      (⟨mutateFirst s.tasks task_id
          (fun t => updateFields t title description category), s.next_id⟩, true)
  | none => (s, false)

/-- `TodoApp.delete_task` (todo_app.py 134-141): find by id, then
`self.tasks.remove(task)`. -/
def delete_task (s : TodoState) (task_id : Int) : TodoState × Bool :=
  match get_task_by_id s task_id with
  | some t => (⟨listRemove s.tasks t, s.next_id⟩, true)
  | none => (s, false)

/-- `TodoApp.toggle_complete` (todo_app.py 143-150). -/
def toggle_complete (s : TodoState) (task_id : Int) : TodoState × Bool :=
  match get_task_by_id s task_id with
  | some _ =>
      (⟨mutateFirst s.tasks task_id
          (fun t => { t with completed := !t.completed }), s.next_id⟩, true)
  | none => (s, false)

end Console

namespace Web

/-- `TodoApp.add_task` (app.py 75-91): rejects a title that is empty
after stripping, stores title and description stripped.  The source
returns a status string; it is modeled as a success flag. -/
def add_task (s : TodoState) (title description category created_at : String) :
    TodoState × Bool :=
  if pyStrip title = "" then (s, false)
  else
    let task : Task :=
      ⟨s.next_id, pyStrip title, pyStrip description, category, created_at, false⟩
    (⟨s.tasks ++ [task], s.next_id + 1⟩, true)

/-- The task selection of `TodoApp.get_tasks_display` (app.py 93-97);
the pretty-printing of the selected tasks into a display string
(app.py 99-110) is presentation only and carries no claim. -/
def displayed_tasks (s : TodoState) (filter_category : String) : List Task :=
  if filter_category ≠ "All" then
    s.tasks.filter (fun t => t.category == filter_category)
  else s.tasks

/-- The field updates the web `update_task` applies to the found task
(app.py 116-121): text fields replace only when non-empty after strip
and are stored stripped; a truthy category replaces. -/
def update_fields (t : Task) (title description category : String) : Task :=
  let t1 := if pyStrip title = "" then t else { t with title := pyStrip title }
  let t2 := if pyStrip description = "" then t1
            else { t1 with description := pyStrip description }
  if category = "" then t2 else { t2 with category := category }

/-- `TodoApp.update_task` (app.py 112-124): linear scan, first match
wins; status string modeled as a success flag. -/
def update_task (s : TodoState) (task_id : Int)
    (title description category : String) : TodoState × Bool :=
  match s.tasks.find? (fun task => task.id == task_id) with
  | some _ =>
      (⟨mutateFirst s.tasks task_id
          (fun t => update_fields t title description category), s.next_id⟩, true)
  | none => (s, false)

/-- `TodoApp.delete_task` (app.py 126-133). -/
def delete_task (s : TodoState) (task_id : Int) : TodoState × Bool :=
  match s.tasks.find? (fun task => task.id == task_id) with
  | some t => (⟨listRemove s.tasks t, s.next_id⟩, true)
  | none => (s, false)

/-- `TodoApp.toggle_complete` (app.py 135-143). -/
def toggle_complete (s : TodoState) (task_id : Int) : TodoState × Bool :=
  match s.tasks.find? (fun task => task.id == task_id) with
  | some _ =>
      (⟨mutateFirst s.tasks task_id
          (fun t => { t with completed := !t.completed }), s.next_id⟩, true)
  | none => (s, false)

/-- `TodoApp.get_task_ids` (app.py 145-147). -/
def get_task_ids (s : TodoState) : List Int := s.tasks.map Task.id

end Web

/-- One store call as issued by either adapter.  `reload` models a
process restart: the state is re-read from the document saved after the
last mutation. -/
inductive Call where
  | create (title description category created_at : String)
  | update (task_id : Int) (title description category : Option String)
  | delete (task_id : Int)
  | toggle (task_id : Int)
  | reload
deriving  DecidableEq

/-- Restarting on the file saved from state `s`.  `load_from_file`
always succeeds on a document produced by `save_to_file`
(`load_save_roundtrip` below), so the error branch is unreachable. -/
def reloadState (s : TodoState) : TodoState :=
  match load_from_file (some (some (save_to_file s))) with
  | .ok s' => s'
  | .error _ => s

/-- One step of the console-variant store. -/
def consoleStep (s : TodoState) : Call → TodoState
  | .create t d c ts => (Console.add_task s t d c ts).1
  | .update i t d c => (Console.update_task s i t d c).1
  | .delete i => (Console.delete_task s i).1
  | .toggle i => (Console.toggle_complete s i).1
  | .reload => reloadState s

/-- Running the console-variant store over a call sequence. -/
def consoleRun (s : TodoState) : List Call → TodoState
  | [] => s
  | c :: rest => consoleRun (consoleStep s c) rest

/-- One step of the web-variant store.  An optional text argument that
the console adapter would pass as `None` reaches the web store as the
empty string (a cleared text box). -/
def webStep (s : TodoState) : Call → TodoState
  | .create t d c ts => (Web.add_task s t d c ts).1
  | .update i t d c => (Web.update_task s i (t.getD "") (d.getD "") (c.getD "")).1
  | .delete i => (Web.delete_task s i).1
  | .toggle i => (Web.toggle_complete s i).1
  | .reload => reloadState s

/-- Running the web-variant store over a call sequence. -/
def webRun (s : TodoState) : List Call → TodoState
  | [] => s
  | c :: rest => webRun (webStep s c) rest

/-- The ids of the tasks returned by the create calls of a run of the
console-variant store, in call order. -/
def createdIds (s : TodoState) : List Call → List Int
  | [] => []
  | .create t d c ts :: rest =>
      (Console.add_task s t d c ts).2.id ::
        createdIds (consoleStep s (.create t d c ts)) rest
  | c :: rest => createdIds (consoleStep s c) rest

/-- Arguments on which the two store variants cannot be told apart: text
fields already stripped, a non-empty title on create, and any provided
update description non-empty (the console store overwrites with any
provided description, even an empty one, while the web store overwrites
only with a non-blank one). -/
def cleanCall : Call → Bool
  | .create title description _ _ =>
      (pyStrip title == title) && (title != "") &&
        (pyStrip description == description)
  | .update _ title description _ =>
      (match title with
       | none => true
       | some x => pyStrip x == x) &&
      (match description with
       | none => true
       | some x => (pyStrip x == x) && (x != ""))
  | _ => true

/-- The example scenario of spec section 8 as a call sequence. -/
def exampleCalls : List Call :=
  [.create "Buy milk" "" "Shopping" "2026-02-14 10:00:00",
   .create "Write report" "Q1 summary" "Work" "2026-02-14 10:01:00",
   .delete 1,
   .create "Call dentist" "" "Health" "2026-02-14 10:02:00"]

/-- The example scenario with a process restart spliced in. -/
def exampleCallsWithReload : List Call :=
  [.create "Buy milk" "" "Shopping" "2026-02-14 10:00:00",
   .create "Write report" "Q1 summary" "Work" "2026-02-14 10:01:00",
   .reload, .delete 1,
   .create "Call dentist" "" "Health" "2026-02-14 10:02:00"]

/-- A small store with two categories, used to instantiate theorems. -/
def exampleState : TodoState :=
  ⟨[⟨1, "a", "", "Work", "d1", false⟩, ⟨2, "b", "", "Personal", "d2", false⟩,
    ⟨3, "c", "", "Work", "d3", true⟩], 4⟩

lemma pyStrip_empty : pyStrip "" = "" := rfl

/-- `Task(**asdict(t))` rebuilds `t`. -/
lemma taskFromDict_asdict (t : Task) :
    taskFromDict [("id", .jnum t.id), ("title", .jstr t.title),
      ("description", .jstr t.description), ("category", .jstr t.category),
      ("created_at", .jstr t.created_at), ("completed", .jbool t.completed)]
      = .ok t := rfl

/-- The task-list comprehension inverts `asdict` mapping. -/
lemma tasksFromList_asdict (ts : List Task) :
    tasksFromList (ts.map taskToJson) = .ok ts := by
  induction ts with
  | nil => rfl
  | cons t rest ih =>
      show tasksFromList (.jobj _ :: rest.map taskToJson) = _
      rw [tasksFromList, taskFromDict_asdict, ih]

/-- A document produced by `save_to_file` always loads back to the very
state it was saved from. -/
lemma load_save_roundtrip (s : TodoState) :
    load_from_file (some (some (save_to_file s))) = .ok s := by
  obtain ⟨ts, n⟩ := s
  show (match tasksFromJson (.jarr (ts.map taskToJson)) with
        | .ok ts' => Except.ok (⟨ts', n⟩ : TodoState)
        | .error e => .error e) = .ok (⟨ts, n⟩ : TodoState)
  rw [show tasksFromJson (.jarr (ts.map taskToJson))
        = tasksFromList (ts.map taskToJson) from rfl, tasksFromList_asdict]

/-- A process restart changes nothing. -/
lemma reloadState_eq (s : TodoState) : reloadState s = s := by
  simp [reloadState, load_save_roundtrip]

/-- The linear scans all return the first task whose id matches. -/
lemma find?_first (l₁ l₂ : List Task) (t : Task) (k : Int)
    (h₁ : ∀ u ∈ l₁, u.id ≠ k) (h₂ : t.id = k) :
    List.find? (fun u => u.id == k) (l₁ ++ t :: l₂) = some t := by
  induction l₁ with
  | nil => simp [List.find?_cons, h₂]
  | cons u rest ih =>
      have hu : (u.id == k) = false := by
        simpa using h₁ u (List.mem_cons_self u rest)
      simpa [List.find?_cons, hu] using
        ih fun v hv => h₁ v (List.mem_cons_of_mem u hv)

/-- Mutating the first id match rewrites exactly that position. -/
lemma mutateFirst_first (l₁ l₂ : List Task) (t : Task) (k : Int)
    (f : Task → Task) (h₁ : ∀ u ∈ l₁, u.id ≠ k) (h₂ : t.id = k) :
    mutateFirst (l₁ ++ t :: l₂) k f = l₁ ++ f t :: l₂ := by
  induction l₁ with
  | nil => simp [mutateFirst, h₂]
  | cons u rest ih =>
      have hu : u.id ≠ k := h₁ u (List.mem_cons_self u rest)
      simpa [mutateFirst, hu] using
        ih fun v hv => h₁ v (List.mem_cons_of_mem u hv)

/-- `list.remove` on the first id match drops exactly that position. -/
lemma listRemove_first (l₁ l₂ : List Task) (t : Task)
    (h₁ : ∀ u ∈ l₁, u.id ≠ t.id) :
    listRemove (l₁ ++ t :: l₂) t = l₁ ++ l₂ := by
  induction l₁ with
  | nil => simp [listRemove]
  | cons u rest ih =>
      have hu : u ≠ t := by
        intro he
        exact h₁ u (List.mem_cons_self u rest) (by rw [he])
      simpa [listRemove, hu] using
        ih fun v hv => h₁ v (List.mem_cons_of_mem u hv)

/-- Any list with an id match splits at its first id match. -/
lemma exists_first_decomp (ts : List Task) (k : Int)
    (h : ∃ u ∈ ts, u.id = k) :
    ∃ l₁ t l₂, ts = l₁ ++ t :: l₂ ∧ t.id = k ∧ ∀ u ∈ l₁, u.id ≠ k := by
  induction ts with
  | nil => simp at h
  | cons u rest ih =>
      by_cases hu : u.id = k
      · exact ⟨[], u, rest, rfl, hu, by simp⟩
      · obtain ⟨v, hv, hvk⟩ := h
        rcases List.mem_cons.mp hv with rfl | hv'
        · exact absurd hvk hu
        · obtain ⟨l₁, t, l₂, rfl, ht, hl⟩ := ih ⟨v, hv', hvk⟩
          refine ⟨u :: l₁, t, l₂, rfl, ht, ?_⟩
          intro w hw
          rcases List.mem_cons.mp hw with rfl | hw'
          · exact hu
          · exact hl w hw'

/-- The console update never touches `id`, `created_at` or `completed`. -/
lemma updateFields_frame (t : Task) (a b c : Option String) :
    (Console.updateFields t a b c).id = t.id ∧
    (Console.updateFields t a b c).created_at = t.created_at ∧
    (Console.updateFields t a b c).completed = t.completed := by
  rcases a with _ | x <;> rcases b with _ | y <;> rcases c with _ | z <;>
    simp only [Console.updateFields] <;>
    refine ⟨?_, ?_, ?_⟩ <;> (repeat' split) <;> trivial

/-- The web update never touches `id`, `created_at` or `completed`. -/
lemma update_fields_frame (t : Task) (a b c : String) :
    (Web.update_fields t a b c).id = t.id ∧
    (Web.update_fields t a b c).created_at = t.created_at ∧
    (Web.update_fields t a b c).completed = t.completed := by
  simp only [Web.update_fields]
  refine ⟨?_, ?_, ?_⟩ <;> (repeat' split) <;> trivial

/-- `mutateFirst` leaves any field its mutation leaves alone. -/
lemma mutateFirst_map {β : Type} (g : Task → β) (ts : List Task) (k : Int)
    (f : Task → Task) (hf : ∀ t, g (f t) = g t) :
    (mutateFirst ts k f).map g = ts.map g := by
  induction ts with
  | nil => rfl
  | cons t rest ih =>
      by_cases h : t.id = k <;> simp [mutateFirst, h, hf, ih]

/-- `list.remove` yields a sublist. -/
lemma listRemove_sublist (ts : List Task) (x : Task) :
    (listRemove ts x).Sublist ts := by
  induction ts with
  | nil => simp [listRemove]
  | cons t rest ih =>
      by_cases h : t = x
      · simp only [listRemove, if_pos h]
        exact List.sublist_cons_self t rest
      · simp only [listRemove, if_neg h]
        exact ih.cons₂ t

lemma add_task_ret_id (s : TodoState) (t d c ts : String) :
    (Console.add_task s t d c ts).2.id = s.next_id := rfl

lemma add_task_next_id (s : TodoState) (t d c ts : String) :
    (Console.add_task s t d c ts).1.next_id = s.next_id + 1 := rfl

/-- `update_task` never changes `next_id`. -/
lemma update_task_next_id (s : TodoState) (k : Int) (a b c : Option String) :
    (Console.update_task s k a b c).1.next_id = s.next_id := by
  unfold Console.update_task
  cases Console.get_task_by_id s k <;> rfl

/-- `delete_task` never changes `next_id`. -/
lemma delete_task_next_id (s : TodoState) (k : Int) :
    (Console.delete_task s k).1.next_id = s.next_id := by
  unfold Console.delete_task
  cases Console.get_task_by_id s k <;> rfl

/-- `toggle_complete` never changes `next_id`. -/
lemma toggle_complete_next_id (s : TodoState) (k : Int) :
    (Console.toggle_complete s k).1.next_id = s.next_id := by
  unfold Console.toggle_complete
  cases Console.get_task_by_id s k <;> rfl

/-- `update_task` preserves the id sequence. -/
lemma update_task_ids (s : TodoState) (k : Int) (a b c : Option String) :
    (Console.update_task s k a b c).1.tasks.map Task.id
      = s.tasks.map Task.id := by
  unfold Console.update_task
  cases Console.get_task_by_id s k with
  | none => rfl
  | some u =>
      exact mutateFirst_map Task.id s.tasks k
        (fun t => Console.updateFields t a b c)
        (fun v => (updateFields_frame v a b c).1)

/-- `toggle_complete` preserves the id sequence. -/
lemma toggle_complete_ids (s : TodoState) (k : Int) :
    (Console.toggle_complete s k).1.tasks.map Task.id
      = s.tasks.map Task.id := by
  unfold Console.toggle_complete
  cases Console.get_task_by_id s k with
  | none => rfl
  | some u =>
      exact mutateFirst_map Task.id s.tasks k
        (fun t => { t with completed := !t.completed }) (fun v => rfl)

/-- `delete_task` only removes tasks. -/
lemma delete_task_sublist (s : TodoState) (k : Int) :
    (Console.delete_task s k).1.tasks.Sublist s.tasks := by
  unfold Console.delete_task
  cases Console.get_task_by_id s k with
  | none => exact List.Sublist.refl _
  | some u => exact listRemove_sublist s.tasks u

/-- No store call ever decreases `next_id`. -/
lemma step_next_id_le (s : TodoState) (c : Call) :
    s.next_id ≤ (consoleStep s c).next_id := by
  cases c with
  | create t d cat ts =>
      show s.next_id ≤ s.next_id + 1
      omega
  | update i a b cc =>
      rw [show consoleStep s (.update i a b cc)
            = (Console.update_task s i a b cc).1 from rfl, update_task_next_id]
  | delete i =>
      rw [show consoleStep s (.delete i) = (Console.delete_task s i).1 from rfl,
          delete_task_next_id]
  | toggle i =>
      rw [show consoleStep s (.toggle i) = (Console.toggle_complete s i).1 from rfl,
          toggle_complete_next_id]
  | reload => simp [consoleStep, reloadState_eq]

/-- A task of the post-state of a call is either the freshly created task
or carries the id of a pre-state task. -/
lemma step_invariant (s : TodoState) (c : Call)
    (h : ∀ t ∈ s.tasks, t.id < s.next_id) :
    ∀ t ∈ (consoleStep s c).tasks, t.id < (consoleStep s c).next_id := by
  cases c with
  | create ti d cat ts =>
      intro t ht
      simp only [consoleStep, Console.add_task, List.mem_append,
        List.mem_singleton] at ht
      rcases ht with ht | rfl
      · exact lt_trans (h t ht) (by
          show s.next_id < s.next_id + 1
          omega)
      · show s.next_id < s.next_id + 1
        omega
  | update i a b cc =>
      intro t ht
      rw [show consoleStep s (.update i a b cc)
            = (Console.update_task s i a b cc).1 from rfl] at ht ⊢
      rw [update_task_next_id]
      have hmem : t.id ∈ (Console.update_task s i a b cc).1.tasks.map Task.id :=
        List.mem_map_of_mem Task.id ht
      rw [update_task_ids] at hmem
      obtain ⟨v, hv, hvid⟩ := List.mem_map.mp hmem
      rw [← hvid]
      exact h v hv
  | delete i =>
      intro t ht
      rw [show consoleStep s (.delete i) = (Console.delete_task s i).1 from rfl] at ht ⊢
      rw [delete_task_next_id]
      exact h t ((delete_task_sublist s i).mem ht)
  | toggle i =>
      intro t ht
      rw [show consoleStep s (.toggle i) = (Console.toggle_complete s i).1 from rfl] at ht ⊢
      rw [toggle_complete_next_id]
      have hmem : t.id ∈ (Console.toggle_complete s i).1.tasks.map Task.id :=
        List.mem_map_of_mem Task.id ht
      rw [toggle_complete_ids] at hmem
      obtain ⟨v, hv, hvid⟩ := List.mem_map.mp hmem
      rw [← hvid]
      exact h v hv
  | reload =>
      simpa [consoleStep, reloadState_eq] using h

/-- `next_id` never decreases along a run. -/
lemma run_next_id_le (ops : List Call) :
    ∀ s : TodoState, s.next_id ≤ (consoleRun s ops).next_id := by
  induction ops with
  | nil => intro s; exact le_refl _
  | cons c rest ih =>
      intro s
      exact le_trans (step_next_id_le s c) (ih (consoleStep s c))

/-- The id invariant is preserved along a run. -/
lemma run_invariant (ops : List Call) :
    ∀ s : TodoState, (∀ t ∈ s.tasks, t.id < s.next_id) →
      ∀ t ∈ (consoleRun s ops).tasks, t.id < (consoleRun s ops).next_id := by
  induction ops with
  | nil => intro s h; exact h
  | cons c rest ih =>
      intro s h
      exact ih (consoleStep s c) (step_invariant s c h)

/-- Every id handed out during a run is at least the starting `next_id`. -/
lemma createdIds_lower (ops : List Call) :
    ∀ s : TodoState, ∀ i ∈ createdIds s ops, s.next_id ≤ i := by
  induction ops with
  | nil => intro s i hi; simp [createdIds] at hi
  | cons c rest ih =>
      intro s i hi
      cases c with
      | create t d cat ts =>
          rw [createdIds] at hi
          rcases List.mem_cons.mp hi with rfl | hi'
          · exact le_refl _
          · have h1 := ih _ i hi'
            have h2 : (consoleStep s (.create t d cat ts)).next_id
                = s.next_id + 1 := rfl
            omega
      | update k a b cc => exact le_trans (step_next_id_le s _) (ih _ i hi)
      | delete k => exact le_trans (step_next_id_le s _) (ih _ i hi)
      | toggle k => exact le_trans (step_next_id_le s _) (ih _ i hi)
      | reload => exact le_trans (step_next_id_le s _) (ih _ i hi)

/-- Every id handed out during a run is below the final `next_id`. -/
lemma createdIds_upper (ops : List Call) :
    ∀ s : TodoState, ∀ i ∈ createdIds s ops, i < (consoleRun s ops).next_id := by
  induction ops with
  | nil => intro s i hi; simp [createdIds] at hi
  | cons c rest ih =>
      intro s i hi
      cases c with
      | create t d cat ts =>
          rw [createdIds] at hi
          rw [show consoleRun s (.create t d cat ts :: rest)
                = consoleRun (consoleStep s (.create t d cat ts)) rest from rfl]
          rcases List.mem_cons.mp hi with rfl | hi'
          · have h1 := run_next_id_le rest (consoleStep s (.create t d cat ts))
            have h2 : (consoleStep s (.create t d cat ts)).next_id
                = s.next_id + 1 := rfl
            show s.next_id < _
            omega
          · exact ih _ i hi'
      | update k a b cc => exact ih _ i hi
      | delete k => exact ih _ i hi
      | toggle k => exact ih _ i hi
      | reload => exact ih _ i hi

/-- The ids handed out during a run are strictly increasing. -/
lemma createdIds_sorted (ops : List Call) :
    ∀ s : TodoState, (createdIds s ops).Pairwise (· < ·) := by
  induction ops with
  | nil => intro s; simp [createdIds]
  | cons c rest ih =>
      intro s
      cases c with
      | create t d cat ts =>
          rw [createdIds]
          refine List.Pairwise.cons ?_ (ih _)
          intro i hi
          have h1 := createdIds_lower rest _ i hi
          have h2 : (consoleStep s (.create t d cat ts)).next_id
              = s.next_id + 1 := rfl
          show s.next_id < i
          omega
      | update k a b cc => exact ih (consoleStep s (.update k a b cc))
      | delete k => exact ih (consoleStep s (.delete k))
      | toggle k => exact ih (consoleStep s (.toggle k))
      | reload => exact ih (consoleStep s .reload)

/-- C1: starting from an empty store, along any call sequence (creates
interleaved with deletes, updates, toggles and restarts) the ids returned
by the create calls are strictly increasing in call order, hence pairwise
distinct; and every task present in the store at any intermediate point —
in particular any task deleted later — has an id strictly below every id
a later create returns, so a deleted id is never reassigned. -/
theorem created_ids_monotone_and_never_reused (ops l₁ l₂ : List Call) :
    (createdIds initialState ops).Pairwise (· < ·) ∧
    (createdIds initialState ops).Pairwise (· ≠ ·) ∧
    ∀ t ∈ (consoleRun initialState l₁).tasks,
      ∀ i ∈ createdIds (consoleRun initialState l₁) l₂, t.id < i := by
  refine ⟨createdIds_sorted ops initialState,
    (createdIds_sorted ops initialState).imp (fun hab => ne_of_lt hab), ?_⟩
  intro t ht i hi
  have h1 : t.id < (consoleRun initialState l₁).next_id :=
    run_invariant l₁ initialState (by simp [initialState]) t ht
  have h2 := createdIds_lower l₂ (consoleRun initialState l₁) i hi
  omega

/-- Witness for C1 on the spec section 8 scenario, split just before the
delete: the task with id 1 is still present after the first two creates,
and the create issued after `delete 1` returns id 3, not 1. -/
theorem created_ids_monotone_and_never_reused_witness :
    List.Pairwise (· < ·) (createdIds initialState exampleCalls) ∧
    (1 : Int) < 3 := by
  have h := created_ids_monotone_and_never_reused exampleCalls
    [.create "Buy milk" "" "Shopping" "2026-02-14 10:00:00",
     .create "Write report" "Q1 summary" "Work" "2026-02-14 10:01:00"]
    [.delete 1, .create "Call dentist" "" "Health" "2026-02-14 10:02:00"]
  refine ⟨h.1, ?_⟩
  exact h.2.2 ⟨1, "Buy milk", "", "Shopping", "2026-02-14 10:00:00", false⟩
    (by decide) 3 (by decide)

/-- C2: serializing any store state with `save_to_file` and loading the
resulting `{next_id, tasks}` document into a fresh store yields exactly
the original task sequence (same ids, titles, descriptions, categories,
timestamps and completion flags, in the same order) and the original
`next_id`. -/
theorem save_then_load_restores_state (s : TodoState) :
    load_from_file (some (some (save_to_file s))) = .ok s :=
  load_save_roundtrip s

/-- C6 (code bug): the claim expects construction to survive any absent,
unparseable or structurally invalid backing file by initializing an empty
store with `next_id = 1`.  The absent and unparseable cases do behave so,
but a document whose task entry misses expected fields makes
`Task(**task)` raise `TypeError`, which the `except (JSONDecodeError,
KeyError)` clause does not catch: construction crashes.  (Also, a
document merely missing the `tasks` key keeps its stored `next_id`
rather than resetting it to 1.) -/
theorem load_crashes_on_malformed_task_entry :
    load_from_file (some (some (.jobj [("next_id", .jnum 2),
        ("tasks", .jarr [.jobj [("id", .jnum 1)]])]))) = .error .typeError ∧
    load_from_file none = .ok initialState ∧
    load_from_file (some none) = .ok initialState ∧
    load_from_file (some (some (.jobj []))) = .ok initialState ∧
    load_from_file (some (some (.jobj [("next_id", .jnum 5)]))) = .ok ⟨[], 5⟩ :=
  ⟨rfl, rfl, rfl, rfl, rfl⟩

/-- C7: in every state reachable from the empty store by create, update,
delete and toggle calls and by restarts that re-load the document the
store itself persisted, `next_id` is strictly greater than every id ever
assigned by a create and strictly greater than the id of every task
currently stored.  ("Persisted document" is read as a document written by
`save_to_file`; `load_from_file` itself validates nothing, which is the
subject of the first-match claim.) -/
theorem next_id_exceeds_all_assigned_ids (ops : List Call) :
    (∀ i ∈ createdIds initialState ops, i < (consoleRun initialState ops).next_id) ∧
    ∀ t ∈ (consoleRun initialState ops).tasks,
      t.id < (consoleRun initialState ops).next_id :=
  ⟨fun i hi => createdIds_upper ops initialState i hi,
   run_invariant ops initialState (by simp [initialState])⟩

/-- Witness for C7 on the section 8 scenario with a restart spliced in:
assigned ids 1 and 3 both lie below the final `next_id`, 4. -/
theorem next_id_exceeds_all_assigned_ids_witness :
    (1 : Int) < 4 ∧ (3 : Int) < 4 := by
  have h := next_id_exceeds_all_assigned_ids exampleCallsWithReload
  exact ⟨h.1 1 (by decide), h.1 3 (by decide)⟩

/-- C3: for every store state, the category filter returns exactly the
subsequence of the unfiltered list whose tasks carry that category, in
the same relative order — it is a sublist of the full list, all its
elements match, and every matching sublist of the full list is a sublist
of it — and listing without a filter (console `get_all_tasks`, or the web
display with filter "All") returns all tasks in insertion order. -/
theorem category_filter_exact_subsequence (s : TodoState) (C : String) :
    Console.get_all_tasks s = s.tasks ∧
    (Console.get_tasks_by_category s C).Sublist (Console.get_all_tasks s) ∧
    (∀ t ∈ Console.get_tasks_by_category s C, t.category = C) ∧
    (∀ u : List Task, u.Sublist (Console.get_all_tasks s) →
        (∀ t ∈ u, t.category = C) →
        u.Sublist (Console.get_tasks_by_category s C)) ∧
    Web.displayed_tasks s "All" = s.tasks ∧
    (C ≠ "All" → Web.displayed_tasks s C = Console.get_tasks_by_category s C) := by
  refine ⟨rfl, List.filter_sublist s.tasks, ?_, ?_, by simp [Web.displayed_tasks], ?_⟩
  · intro t ht
    have h := List.of_mem_filter ht
    simpa using h
  · intro u hu hall
    have h1 : u.filter (fun t => t.category == C) = u :=
      List.filter_eq_self.mpr (fun a ha => by simpa using hall a ha)
    have h2 := hu.filter (fun t => t.category == C)
    rw [h1] at h2
    exact h2
  · intro h
    simp [Web.displayed_tasks, h, Console.get_tasks_by_category]

/-- Witness for C3 on `exampleState`: the two Work tasks form a matching
sublist recognized by the maximality clause, and the web display filtered
to Work agrees with the console filter. -/
theorem category_filter_exact_subsequence_witness :
    List.Sublist [⟨1, "a", "", "Work", "d1", false⟩, ⟨3, "c", "", "Work", "d3", true⟩]
        (Console.get_tasks_by_category exampleState "Work") ∧
    Web.displayed_tasks exampleState "Work"
      = Console.get_tasks_by_category exampleState "Work" := by
  have h := category_filter_exact_subsequence exampleState "Work"
  exact ⟨h.2.2.2.1 _ (by decide) (by decide), h.2.2.2.2.2 (by decide)⟩

/-- C10: in any store whose task list splits as `l₁ ++ t :: l₂` with no
id match for `t.id` in `l₁` — including lists with duplicated ids, which
`load_from_file` never rules out — `get_task_by_id` returns `t`, and
update, delete and toggle of both variants act on exactly that first
match, leaving `l₁` and `l₂` (so any later task with the same id)
untouched. -/
theorem id_operations_use_first_match
    (l₁ l₂ : List Task) (t : Task) (n : Int)
    (ot od oc : Option String) (ts ds cs : String)
    (h : ∀ u ∈ l₁, u.id ≠ t.id) :
    Console.get_task_by_id ⟨l₁ ++ t :: l₂, n⟩ t.id = some t ∧
    (Console.update_task ⟨l₁ ++ t :: l₂, n⟩ t.id ot od oc).1
      = ⟨l₁ ++ Console.updateFields t ot od oc :: l₂, n⟩ ∧
    (Console.delete_task ⟨l₁ ++ t :: l₂, n⟩ t.id).1 = ⟨l₁ ++ l₂, n⟩ ∧
    (Console.toggle_complete ⟨l₁ ++ t :: l₂, n⟩ t.id).1
      = ⟨l₁ ++ { t with completed := !t.completed } :: l₂, n⟩ ∧
    (Web.update_task ⟨l₁ ++ t :: l₂, n⟩ t.id ts ds cs).1
      = ⟨l₁ ++ Web.update_fields t ts ds cs :: l₂, n⟩ ∧
    (Web.delete_task ⟨l₁ ++ t :: l₂, n⟩ t.id).1 = ⟨l₁ ++ l₂, n⟩ ∧
    (Web.toggle_complete ⟨l₁ ++ t :: l₂, n⟩ t.id).1
      = ⟨l₁ ++ { t with completed := !t.completed } :: l₂, n⟩ := by
  have hf : List.find? (fun u => u.id == t.id) (l₁ ++ t :: l₂) = some t :=
    find?_first l₁ l₂ t t.id h rfl
  have hm : ∀ f : Task → Task,
      mutateFirst (l₁ ++ t :: l₂) t.id f = l₁ ++ f t :: l₂ :=
    fun f => mutateFirst_first l₁ l₂ t t.id f h rfl
  have hr : listRemove (l₁ ++ t :: l₂) t = l₁ ++ l₂ := listRemove_first l₁ l₂ t h
  refine ⟨hf, ?_, ?_, ?_, ?_, ?_, ?_⟩
  · simp only [Console.update_task, Console.get_task_by_id, hf, hm]
  · simp only [Console.delete_task, Console.get_task_by_id, hf, hr]
  · simp only [Console.toggle_complete, Console.get_task_by_id, hf, hm]
  · simp only [Web.update_task, hf, hm]
  · simp only [Web.delete_task, hf, hr]
  · simp only [Web.toggle_complete, hf, hm]

/-- Witness for C10 on a store loaded with a duplicated id 2: the
operations touch the middle task (first id-2 match) and leave the later
id-2 task exactly as it was. -/
theorem id_operations_use_first_match_witness :
    (Console.delete_task ⟨[⟨1, "a", "", "Work", "d1", false⟩,
        ⟨2, "b", "", "Personal", "d2", false⟩,
        ⟨2, "dup", "", "Other", "d4", true⟩], 3⟩ 2).1
      = ⟨[⟨1, "a", "", "Work", "d1", false⟩,
          ⟨2, "dup", "", "Other", "d4", true⟩], 3⟩ ∧
    (Console.toggle_complete ⟨[⟨1, "a", "", "Work", "d1", false⟩,
        ⟨2, "b", "", "Personal", "d2", false⟩,
        ⟨2, "dup", "", "Other", "d4", true⟩], 3⟩ 2).1
      = ⟨[⟨1, "a", "", "Work", "d1", false⟩,
          ⟨2, "b", "", "Personal", "d2", true⟩,
          ⟨2, "dup", "", "Other", "d4", true⟩], 3⟩ := by
  have h := id_operations_use_first_match
    [⟨1, "a", "", "Work", "d1", false⟩] [⟨2, "dup", "", "Other", "d4", true⟩]
    ⟨2, "b", "", "Personal", "d2", false⟩ 3 none none none "" "" ""
    (by decide)
  exact ⟨h.2.2.1, h.2.2.2.1⟩

/-- Flipping `completed` twice is the identity on a task. -/
lemma toggle_toggle_task (t : Task) :
    ({ ({ t with completed := !t.completed } : Task) with
        completed := !(!t.completed) } : Task) = t := by
  cases t
  simp

/-- The state transformers of the two toggle implementations coincide
definitionally. -/
lemma web_toggle_eq_console (s : TodoState) (k : Int) :
    Web.toggle_complete s k = Console.toggle_complete s k := rfl

/-- Toggling at the first id match flips exactly that task. -/
lemma toggle_complete_first (l₁ l₂ : List Task) (t : Task) (n k : Int)
    (h : ∀ u ∈ l₁, u.id ≠ k) (htk : t.id = k) :
    Console.toggle_complete ⟨l₁ ++ t :: l₂, n⟩ k
      = (⟨l₁ ++ ({ t with completed := !t.completed } : Task) :: l₂, n⟩, true) := by
  simp only [Console.toggle_complete, Console.get_task_by_id,
    find?_first l₁ l₂ t k h htk,
    mutateFirst_first l₁ l₂ t k _ h htk]

/-- C8: toggling the same existing id twice succeeds both times and
returns the store — the whole task sequence and `next_id` — to exactly
its previous state, in both variants. -/
theorem toggle_twice_restores_state (s : TodoState) (k : Int)
    (h : ∃ t ∈ s.tasks, t.id = k) :
    (Console.toggle_complete s k).2 = true ∧
    (Console.toggle_complete (Console.toggle_complete s k).1 k).2 = true ∧
    (Console.toggle_complete (Console.toggle_complete s k).1 k).1 = s ∧
    (Web.toggle_complete s k).2 = true ∧
    (Web.toggle_complete (Web.toggle_complete s k).1 k).1 = s := by
  obtain ⟨ts, n⟩ := s
  obtain ⟨l₁, t, l₂, hsplit, htk, hl⟩ := exists_first_decomp ts k h
  subst hsplit
  subst htk
  have e1 := toggle_complete_first l₁ l₂ t n t.id hl rfl
  have e2 := toggle_complete_first l₁ l₂
    ({ t with completed := !t.completed } : Task) n t.id hl rfl
  have hstate : (Console.toggle_complete ⟨l₁ ++ t :: l₂, n⟩ t.id).1
      = ⟨l₁ ++ ({ t with completed := !t.completed } : Task) :: l₂, n⟩ := by
    rw [e1]
  refine ⟨by rw [e1], ?_, ?_, by rw [web_toggle_eq_console, e1], ?_⟩
  · rw [hstate, e2]
  · rw [hstate, e2]
    simp only
    rw [toggle_toggle_task]
  · rw [web_toggle_eq_console, web_toggle_eq_console, hstate, e2]
    simp only
    rw [toggle_toggle_task]

/-- Witness for C8: toggling id 2 of `exampleState` twice restores the
store. -/
theorem toggle_twice_restores_state_witness :
    (Console.toggle_complete
        (Console.toggle_complete exampleState 2).1 2).1 = exampleState ∧
    (Web.toggle_complete (Web.toggle_complete exampleState 2).1 2).1
      = exampleState := by
  have h := toggle_twice_restores_state exampleState 2
    ⟨⟨2, "b", "", "Personal", "d2", false⟩, by decide, by decide⟩
  exact ⟨h.2.2.1, h.2.2.2.2⟩

/-- C4 (code bug in the console variant): the spec requires store-level
create to reject empty or whitespace-only titles with no state change in
both variants, but `todo_app.py`'s `add_task` performs no validation: it
happily stores an empty or blank title and bumps `next_id`.  The web
variant does reject such titles without state change. -/
theorem console_store_accepts_blank_title :
    (Console.add_task initialState "" "d" "Work" "2026-02-14 09:00:00").1
      = ⟨[⟨1, "", "d", "Work", "2026-02-14 09:00:00", false⟩], 2⟩ ∧
    (Console.add_task initialState "   " "d" "Work" "2026-02-14 09:00:00").1
      = ⟨[⟨1, "   ", "d", "Work", "2026-02-14 09:00:00", false⟩], 2⟩ ∧
    (Web.add_task initialState "" "d" "Work" "2026-02-14 09:00:00").1
      = initialState ∧
    (Web.add_task initialState "   " "d" "Work" "2026-02-14 09:00:00").1
      = initialState ∧
    pyStrip "   " = "" := by
  exact ⟨rfl, rfl, rfl, by decide, rfl⟩

/-- C5 counterexample: on the console store, an update passing the empty
string as description overwrites the stored description (the code tests
`description is not None`, not truthiness), and an update passing a
whitespace-only title overwrites the stored title (the code tests
truthiness without trimming) — both arguments are empty after trimming,
yet neither field keeps its existing value. -/
theorem console_update_blank_overwrites :
    (Console.update_task ⟨[⟨1, "t", "old", "Work", "d0", false⟩], 2⟩ 1
        none (some "") none).1.tasks = [⟨1, "t", "", "Work", "d0", false⟩] ∧
    (Console.update_task ⟨[⟨1, "t", "old", "Work", "d0", false⟩], 2⟩ 1
        (some " ") none none).1.tasks = [⟨1, " ", "old", "Work", "d0", false⟩] ∧
    pyStrip "" = "" ∧ pyStrip " " = "" ∧ ("old" : String) ≠ "" ∧
    ("t" : String) ≠ " " := by
  refine ⟨by decide, by decide, rfl, by decide, by decide, by decide⟩

/-- Fields a title-only console update leaves alone. -/
lemma updateFields_title_only (v : Task) (x : String) :
    (Console.updateFields v (some x) none none).description = v.description ∧
    (Console.updateFields v (some x) none none).category = v.category ∧
    (Console.updateFields v (some x) none none).completed = v.completed := by
  simp only [Console.updateFields]
  refine ⟨?_, ?_, ?_⟩ <;> split <;> rfl

/-- Fields a title-only web update leaves alone. -/
lemma update_fields_title_only (v : Task) (x : String) :
    (Web.update_fields v x "" "").description = v.description ∧
    (Web.update_fields v x "" "").category = v.category ∧
    (Web.update_fields v x "" "").completed = v.completed := by
  simp only [Web.update_fields, pyStrip_empty]
  refine ⟨?_, ?_, ?_⟩ <;> simp <;> split <;> rfl

/-- The web update never changes `next_id`. -/
lemma web_update_next_id (s : TodoState) (k : Int) (a b c : String) :
    (Web.update_task s k a b c).1.next_id = s.next_id := by
  unfold Web.update_task
  cases s.tasks.find? (fun task => task.id == k) <;> rfl

/-- C5 (amended): the claimed "blank keeps the field" semantics holds of
the web variant, whose update replaces a text field only when non-empty
after stripping (storing it stripped) and a category only when truthy.
The console variant instead keeps a field when the parameter is `None`,
replaces the title or category verbatim whenever the string is non-empty
— even whitespace-only — and replaces the description with any provided
string, the empty string included.  In both variants an update supplying
only a new title leaves every task's description, category and completed
flag, and the store's `next_id`, unchanged. -/
theorem update_optional_overwrite_semantics
    (t : Task) (ot od oc : Option String) (ts ds cs : String)
    (s : TodoState) (k : Int) (x : String) :
    Console.updateFields t ot od oc =
      { t with
        title := ot.elim t.title (fun y => if y = "" then t.title else y),
        description := od.elim t.description (fun d => d),
        category := oc.elim t.category
          (fun c => if c = "" then t.category else c) } ∧
    Web.update_fields t ts ds cs =
      { t with
        title := if pyStrip ts = "" then t.title else pyStrip ts,
        description := if pyStrip ds = "" then t.description else pyStrip ds,
        category := if cs = "" then t.category else cs } ∧
    (Console.update_task s k (some x) none none).1.tasks.map Task.description
      = s.tasks.map Task.description ∧
    (Console.update_task s k (some x) none none).1.tasks.map Task.category
      = s.tasks.map Task.category ∧
    (Console.update_task s k (some x) none none).1.tasks.map Task.completed
      = s.tasks.map Task.completed ∧
    (Console.update_task s k (some x) none none).1.next_id = s.next_id ∧
    (Web.update_task s k x "" "").1.tasks.map Task.description
      = s.tasks.map Task.description ∧
    (Web.update_task s k x "" "").1.tasks.map Task.category
      = s.tasks.map Task.category ∧
    (Web.update_task s k x "" "").1.tasks.map Task.completed
      = s.tasks.map Task.completed ∧
    (Web.update_task s k x "" "").1.next_id = s.next_id := by
  refine ⟨?_, ?_, ?_, ?_, ?_, update_task_next_id s k (some x) none none,
    ?_, ?_, ?_, web_update_next_id s k x "" ""⟩
  · cases t
    rcases ot with _ | y <;> rcases od with _ | d <;> rcases oc with _ | c <;>
      simp only [Console.updateFields, Option.elim] <;> split_ifs <;> rfl
  · cases t
    simp only [Web.update_fields]
    split_ifs <;> rfl
  · unfold Console.update_task
    cases Console.get_task_by_id s k with
    | none => rfl
    | some u =>
        exact mutateFirst_map Task.description s.tasks k _
          (fun v => (updateFields_title_only v x).1)
  · unfold Console.update_task
    cases Console.get_task_by_id s k with
    | none => rfl
    | some u =>
        exact mutateFirst_map Task.category s.tasks k _
          (fun v => (updateFields_title_only v x).2.1)
  · unfold Console.update_task
    cases Console.get_task_by_id s k with
    | none => rfl
    | some u =>
        exact mutateFirst_map Task.completed s.tasks k _
          (fun v => (updateFields_title_only v x).2.2)
  · unfold Web.update_task
    cases s.tasks.find? (fun task => task.id == k) with
    | none => rfl
    | some u =>
        exact mutateFirst_map Task.description s.tasks k _
          (fun v => (update_fields_title_only v x).1)
  · unfold Web.update_task
    cases s.tasks.find? (fun task => task.id == k) with
    | none => rfl
    | some u =>
        exact mutateFirst_map Task.category s.tasks k _
          (fun v => (update_fields_title_only v x).2.1)
  · unfold Web.update_task
    cases s.tasks.find? (fun task => task.id == k) with
    | none => rfl
    | some u =>
        exact mutateFirst_map Task.completed s.tasks k _
          (fun v => (update_fields_title_only v x).2.2)

/-- C9 counterexample: the very first create already separates the two
stores.  On `add_task(" a ", ...)`-style input (here a title with a
trailing blank) the console store keeps the raw title while the web store
strips it, so the resulting task sequences differ; the claim that every
same-argument call sequence yields the same state is false. -/
theorem console_web_add_disagree :
    (Console.add_task initialState "a " "" "Work" "2026-02-14 09:00:00").1 ≠
      (Web.add_task initialState "a " "" "Work" "2026-02-14 09:00:00").1 := by
  decide

/-- Same-shaped mutations act identically. -/
lemma mutateFirst_congr (ts : List Task) (k : Int) (f g : Task → Task)
    (h : ∀ t, f t = g t) : mutateFirst ts k f = mutateFirst ts k g := by
  induction ts with
  | nil => rfl
  | cons t rest ih =>
      by_cases hk : t.id = k <;> simp [mutateFirst, hk, h, ih]

/-- On clean update arguments the two field-update semantics agree,
reading a console `None` as the web's cleared text box. -/
lemma clean_update_fields_agree (t : Task) (ot od oc : Option String)
    (h1 : (match ot with
           | none => true
           | some x => pyStrip x == x) = true)
    (h2 : (match od with
           | none => true
           | some x => (pyStrip x == x) && (x != "")) = true) :
    Console.updateFields t ot od oc
      = Web.update_fields t (ot.getD "") (od.getD "") (oc.getD "") := by
  obtain ⟨tid, ttl, tds, tct, tca, tcp⟩ := t
  rcases ot with _ | x <;> rcases od with _ | y <;> rcases oc with _ | z <;>
    simp only [beq_iff_eq, Bool.and_eq_true, bne_iff_ne, ne_eq] at h1 h2 <;>
    simp_all [Console.updateFields, Web.update_fields, pyStrip_empty]

/-- On a clean call the two store variants take the same step. -/
lemma step_agree (s : TodoState) (c : Call) (h : cleanCall c = true) :
    consoleStep s c = webStep s c := by
  cases c with
  | create t d cat ts =>
      simp only [cleanCall, Bool.and_eq_true, beq_iff_eq, bne_iff_ne, ne_eq] at h
      obtain ⟨⟨h1, h2⟩, h3⟩ := h
      show (Console.add_task s t d cat ts).1 = (Web.add_task s t d cat ts).1
      rw [Web.add_task, if_neg (by rw [h1]; exact h2), Console.add_task, h1, h3]
  | update i ot od oc =>
      simp only [cleanCall, Bool.and_eq_true] at h
      show (Console.update_task s i ot od oc).1
        = (Web.update_task s i (ot.getD "") (od.getD "") (oc.getD "")).1
      rw [Console.update_task, Web.update_task, Console.get_task_by_id]
      cases s.tasks.find? (fun task => task.id == i) with
      | none => rfl
      | some u =>
          simp only
          rw [mutateFirst_congr s.tasks i _ _
            (fun v => clean_update_fields_agree v ot od oc h.1 h.2)]
  | delete i => rfl
  | toggle i => rfl
  | reload => rfl

/-- C9 (amended): the two `TodoApp` classes realize the same core only up
to input hygiene.  Delete, toggle, restart — and lookup and persistence,
which are textually identical — agree on all arguments, but create and
update differ whenever text arguments need stripping or validation: the
console store performs neither.  On clean calls (stripped text arguments,
a non-empty create title, and no empty-string update description — a
console `None` corresponding to the web's cleared text box) every call
sequence drives both stores through identical task sequences and
`next_id`. -/
theorem console_web_agree_on_clean_inputs (s : TodoState) (calls : List Call)
    (h : ∀ c ∈ calls, cleanCall c = true) :
    consoleRun s calls = webRun s calls := by
  induction calls generalizing s with
  | nil => rfl
  | cons c rest ih =>
      show consoleRun (consoleStep s c) rest = webRun (webStep s c) rest
      rw [step_agree s c (h c (List.mem_cons_self c rest))]
      exact ih (webStep s c) (fun c' hc' => h c' (List.mem_cons_of_mem c hc'))

/-- Witness for C9 on the section 8 scenario (all its calls are clean):
both stores end in the same state. -/
theorem console_web_agree_on_clean_inputs_witness :
    consoleRun initialState exampleCalls = webRun initialState exampleCalls :=
  console_web_agree_on_clean_inputs initialState exampleCalls (by decide)

end Todo
